import Mathlib

/-!
Verification of the ERP support-chatbot backend (AI engine + knowledge manager).

This file gives a shallow embedding of the repository's retrieval layer
(`ai_engine.py`: embedding cache, cosine-similarity search, answer synthesis)
and of the knowledge store (`knowledge_manager.py`: CRUD, id allocation,
category/tag suggestion), and proves or refutes the frozen specification
claims about them.

Modelling conventions:
- Python floats are modelled as real numbers (`ℝ`); `x ** 0.5` on a
  non-negative sum of squares is `Real.sqrt`.
- The external LLM provider is modelled by explicit response oracles: an
  embedding call is a value of type `Option Vec` (`none` = the call raised),
  a chat-completion call is a function from the two messages to
  `Option String` (`none` = the call raised), and `json.loads` of a reply is
  an oracle `String → Option RawResult`.  Theorems quantify over these
  oracles, so they cover every provider behaviour.
- Python's `list.sort(key=..., reverse=True)` is a stable descending sort by
  key; it is modelled by `List.mergeSort` (stable) with the reversed
  comparison on scores, which has identical input/output behaviour.
-/

/-- Embedding vectors (Python: `List[float]`). -/
abbrev Vec := List ℝ

/-- `[0.0] * 1536` — the fallback embedding returned when the provider call
fails (`ai_engine.py` line 130, `knowledge_manager.py` line 90). -/
def zeroVec : Vec := List.replicate 1536 0

/-- `AISentinel.embedding_cache`: an in-memory mapping from raw text to a
vector, modelled as an association list (insertion at the front; `lookup`
finds the entry). -/
abbrev Cache := List (String × Vec)

/-- `AISentinel.get_embedding` (`ai_engine.py` lines 99-130).
`resp` is the provider's response for this attempt (`none` means the
`openai.embeddings.create` call raised): on a cache hit the cached vector is
returned and the provider is not consulted; on a miss with a successful call
the vector is cached and returned; on a miss with a failed call the
zero-filled vector of length 1536 is returned and nothing is cached. -/
def get_embedding (cache : Cache) (text : String) (resp : Option Vec) : Vec × Cache :=
  match cache.lookup text with
  | some v => (v, cache)
  | none =>
    match resp with
    | some embedding => (embedding, (text, embedding) :: cache)
    | none => (zeroVec, cache)

/-- `KnowledgeManager.get_embedding` (`knowledge_manager.py` lines 68-90):
no cache; returns the provider's vector on success and the zero-filled
1536-vector on failure. -/
def km_get_embedding (_text : String) (resp : Option Vec) : Vec :=
  match resp with
  | some embedding => embedding
  | none => zeroVec

/-- A knowledge-base record (the dict stored in `knowledge_base.json`).
`embedding` is `none` when the stored value is JSON `null`. -/
structure KnowledgeItem where
  id : Nat
  title : String
  content : String
  category : String
  tags : List String
  embedding : Option Vec

/-- A knowledge item as returned to callers of the knowledge manager:
the `embedding` key is stripped (`{k: v for k, v in item.items() if k != 'embedding'}`). -/
structure VisibleItem where
  id : Nat
  title : String
  content : String
  category : String
  tags : List String

/-- Strip the embedding field from an item for presentation. -/
def stripEmbedding (it : KnowledgeItem) : VisibleItem :=
  ⟨it.id, it.title, it.content, it.category, it.tags⟩

/-- `dot_product = sum(a_i * b_i for a_i, b_i in zip(a, b))`
(`ai_engine.py` line 153). -/
def dotList (a b : Vec) : ℝ :=
  ((a.zip b).map fun p => p.1 * p.2).sum

/-- `magnitude_a = sum(a_i ** 2 for a_i in a) ** 0.5`
(`ai_engine.py` lines 154-155); `** 0.5` of the non-negative sum of squares
is the square root. -/
noncomputable def magnitude (a : Vec) : ℝ :=
  Real.sqrt ((a.map fun x => x * x).sum)

open Classical in
/-- `cosine_similarity` (`ai_engine.py` lines 152-158): returns `0` when
`magnitude_a * magnitude_b == 0`, else `dot_product / (magnitude_a * magnitude_b)`. -/
noncomputable def cosine_similarity (a b : Vec) : ℝ :=
  if magnitude a * magnitude b = 0 then 0
  else dotList a b / (magnitude a * magnitude b)

/-- The truthiness test `if not item.get("embedding")` (`ai_engine.py` line 148):
true when the stored embedding is `null` or an empty list. -/
def needsEmbedding (item : KnowledgeItem) : Bool :=
  match item.embedding with
  | none => true
  | some v => v.isEmpty

/-- The lazy backfill loop of `search_knowledge_base` (`ai_engine.py`
lines 146-149): every item lacking an embedding gets one via
`AISentinel.get_embedding`, threading the embedding cache; `resp` gives the
provider's response for each attempted text. -/
def backfill (resp : String → Option Vec) : Cache → List KnowledgeItem →
    List KnowledgeItem × Cache
  | cache, [] => ([], cache)
  | cache, item :: rest =>
    if needsEmbedding item then
      let vc := get_embedding cache item.content (resp item.content)
      let rc := backfill resp vc.2 rest
      ({ item with embedding := some vc.1 } :: rc.1, rc.2)
    else
      let rc := backfill resp cache rest
      (item :: rc.1, rc.2)

open Classical in
/-- The scored list `[(item, cosine_similarity(query_embedding, item["embedding"])) ...]`
(`ai_engine.py` lines 161-164). After the backfill loop every item's
embedding is `some`, so `getD []` never actually supplies the default. -/
noncomputable def scoreItems (qe : Vec) (items : List KnowledgeItem) :
    List (KnowledgeItem × ℝ) :=
  items.map fun item => (item, cosine_similarity qe (item.embedding.getD []))

open Classical in
/-- The comparison realised by `scored_items.sort(key=lambda x: x[1], reverse=True)`:
`x` may precede `y` exactly when `x`'s score is at least `y`'s. -/
noncomputable def scoreLE (x y : KnowledgeItem × ℝ) : Bool :=
  decide (y.2 ≤ x.2)

/-- `scored_items.sort(key=lambda x: x[1], reverse=True)` (`ai_engine.py`
line 167): a stable descending sort by score, modelled by the stable
`List.mergeSort`. -/
noncomputable def sortByScoreDesc (scored : List (KnowledgeItem × ℝ)) :
    List (KnowledgeItem × ℝ) :=
  scored.mergeSort scoreLE

/-- `AISentinel.search_knowledge_base` (`ai_engine.py` lines 132-170).
Returns `(top items, backfilled knowledge base, updated cache)`; the first
component is `[item for item, score in scored_items[:top_k]]`. -/
noncomputable def search_knowledge_base (resp : String → Option Vec) (cache : Cache)
    (kb : List KnowledgeItem) (query : String) (top_k : Nat) :
    List KnowledgeItem × List KnowledgeItem × Cache :=
  let qec := get_embedding cache query (resp query)
  let kbc := backfill resp qec.2 kb
  let sorted := sortByScoreDesc (scoreItems qec.1 kbc.1)
  ((sorted.take top_k).map Prod.fst, kbc.1, kbc.2)

/-- The raw dict parsed from the provider's JSON reply in `process_query`
(`ai_engine.py` lines 272-280).  Each schema field is optional because the
code only repairs a missing `sourceKnowledgeIds`; nothing else is validated. -/
structure RawResult where
  answer : Option String
  shouldEscalate : Option Bool
  relatedQuestions : Option (List String)
  category : Option String
  confidence : Option ℝ
  sourceKnowledgeIds : Option (List Nat)

/-- The fixed fallback response of `process_query` (`ai_engine.py`
lines 285-292). -/
def fallbackResult : RawResult :=
  { answer := some "I'm sorry, but I encountered an error while processing your question. Please try again or contact support for assistance."
    shouldEscalate := some true
    relatedQuestions := some []
    category := some "Error"
    confidence := some 0
    sourceKnowledgeIds := some [] }

/-- One rendered knowledge snippet of the context block (`ai_engine.py`
lines 223-226). -/
def renderItem (item : KnowledgeItem) : String :=
  "Title: " ++ item.title ++ "\nContent: " ++ item.content ++ "\nCategory: " ++ item.category

/-- `knowledge_context = "\n\n".join(...)` (`ai_engine.py` lines 223-226). -/
def knowledgeContext (items : List KnowledgeItem) : String :=
  String.intercalate "\n\n" (items.map renderItem)

/-- The fixed system prompt of `process_query` (`ai_engine.py` lines 229-249). -/
def systemPrompt : String :=
  "\n        You are AI Sentinel, an advanced AI assistant for IDMS Infotech's ERP system. \n        Your role is to help employees with their questions about using the ERP system.\n        You should be professional, helpful, and concise in your responses.\n        \n        When answering:\n        1. Base your answers strictly on the knowledge provided.\n        2. If the information isn't in the knowledge base, politely say you don't have that information yet.\n        3. Don't make up information not contained in the knowledge snippets.\n        4. Recommend escalation to human support for complex issues not adequately covered in the knowledge base.\n        5. Include specific steps and navigation paths when explaining processes.\n        6. Use language appropriate for enterprise software support.\n        \n        Format your response as a JSON with the following fields:\n        - answer: Your response to the user's question\n        - shouldEscalate: true/false whether the query should be escalated to human support\n        - relatedQuestions: 2-3 potential follow-up questions related to the user's query\n        - category: The category of the question (e.g. \"Authentication\", \"Sales\", \"HR\")\n        - confidence: A number between 0 and 1 indicating confidence in your answer\n        - sourceKnowledgeIds: Array of IDs of the knowledge items you used in your answer\n        "

/-- The optional user info passed to `process_query`; `department`/`role`
default to the empty string (`user_info.get('department', '')`). -/
structure UserInfo where
  department : String
  role : String

/-- The personalization clause (`ai_engine.py` lines 252-257): appended only
when user info is present and at least one of department/role is non-empty
(Python string truthiness). -/
def userContextOf (user_info : Option UserInfo) : String :=
  match user_info with
  | none => ""
  | some u =>
    if u.department ≠ "" ∨ u.role ≠ "" then
      "\nThe user works in the " ++ u.department ++ " department and has the role of " ++
        u.role ++ ". Tailor your response accordingly."
    else ""

/-- The system message sent to the chat provider (`ai_engine.py` line 264). -/
def sysMessage (user_info : Option UserInfo) : String :=
  systemPrompt ++ userContextOf user_info

/-- The user message sent to the chat provider (`ai_engine.py` line 265). -/
def userMessage (query : String) (relevant : List KnowledgeItem) : String :=
  "Question: " ++ query ++ "\n\nRelevant Knowledge:\n" ++ knowledgeContext relevant

/-- The repair step of `process_query` (`ai_engine.py` lines 276-278): if the
parsed reply lacks `sourceKnowledgeIds`, inject the ids of the retrieved items. -/
def repairSourceIds (json_response : RawResult) (relevant : List KnowledgeItem) : RawResult :=
  match json_response.sourceKnowledgeIds with
  | none => { json_response with sourceKnowledgeIds := some (relevant.map fun it => it.id) }
  | some _ => json_response

/-- `AISentinel.process_query` (`ai_engine.py` lines 208-292).
`chat` is the chat-completion oracle (arguments: system message, user
message; `none` = the call raised) and `jsonParse` models `json.loads` on the
reply (`none` = parse error).  The `try` block covers the provider call, the
parse and the repair; retrieval, context rendering and prompt building are
total (every embedding failure is already absorbed into the zero-vector
fallback inside `get_embedding`).  Returns `(result, backfilled kb, cache)`. -/
noncomputable def process_query (resp : String → Option Vec)
    (chat : String → String → Option String) (jsonParse : String → Option RawResult)
    (cache : Cache) (kb : List KnowledgeItem) (query : String)
    (user_info : Option UserInfo) : RawResult × List KnowledgeItem × Cache :=
  let sr := search_knowledge_base resp cache kb query 3
  let relevant := sr.1
  let result :=
    match chat (sysMessage user_info) (userMessage query relevant) with
    | none => fallbackResult
    | some response_content =>
      match jsonParse response_content with
      | none => fallbackResult
      | some json_response => repairSourceIds json_response relevant
  (result, sr.2.1, sr.2.2)

/-- The body passed to `KnowledgeManager.create_item`; `tags` is optional
(`item_data.get("tags", [])`). -/
structure ItemData where
  title : String
  content : String
  category : String
  tags : Option (List String)

/-- A patch passed to `KnowledgeManager.update_item`.  The four recognized
keys are modelled as options (`none` = key absent from the dict);
`otherKeys` stands for any unrecognized keys in the dict, which the loop
`if key in ["title", "content", "category", "tags"]` skips, so their values
are irrelevant and not modelled. -/
structure ItemPatch where
  title : Option String
  content : Option String
  category : Option String
  tags : Option (List String)
  otherKeys : List String

/-- The field-application loop of `update_item` (`knowledge_manager.py`
lines 207-209): each recognized key present in the patch overwrites the
item's field; unrecognized keys are skipped. -/
def applyFields (it : KnowledgeItem) (p : ItemPatch) : KnowledgeItem :=
  let it1 := match p.title with | some v => { it with title := v } | none => it
  let it2 := match p.content with | some v => { it1 with content := v } | none => it1
  let it3 := match p.category with | some v => { it2 with category := v } | none => it2
  match p.tags with | some v => { it3 with tags := v } | none => it3

/-- `KnowledgeManager.update_item` (`knowledge_manager.py` lines 192-222) on
the item list: finds the first item with the given id, applies the recognized
fields, regenerates the embedding iff `content` is among the patch keys
(from the already-updated content), and returns the updated item with the
embedding stripped, or `none` if no item matches. -/
def update_item (resp : String → Option Vec) :
    List KnowledgeItem → Nat → ItemPatch → Option VisibleItem × List KnowledgeItem
  | [], _, _ => (none, [])
  | it :: rest, item_id, p =>
    if it.id = item_id then
      let it1 := applyFields it p
      let it2 := match p.content with
        | some _ => { it1 with embedding := some (km_get_embedding it1.content (resp it1.content)) }
        | none => it1
      (some (stripEmbedding it2), it2 :: rest)
    else
      let r := update_item resp rest item_id p
      (r.1, it :: r.2)

/-- `KnowledgeManager.delete_item` (`knowledge_manager.py` lines 224-246) on
the item list: removes the first item with the given id; returns whether one
was found. -/
def delete_item : List KnowledgeItem → Nat → Bool × List KnowledgeItem
  | [], _ => (false, [])
  | it :: rest, item_id =>
    if it.id = item_id then (true, rest)
    else
      let r := delete_item rest item_id
      (r.1, it :: r.2)

/-- `max([item["id"] for item in self.knowledge_base], default=0)`
(`knowledge_manager.py` line 45). -/
def maxId (kb : List KnowledgeItem) : Nat :=
  (kb.map fun it => it.id).foldr max 0

/-- The in-memory state of the system: the knowledge-base collection, the
knowledge manager's `next_id` counter, and the AI engine's embedding cache. -/
structure SysState where
  kb : List KnowledgeItem
  nextId : Nat
  cache : Cache

/-- `KnowledgeManager.create_item` (`knowledge_manager.py` lines 157-190):
builds the new item with id `next_id`, computes its embedding eagerly from
the content, appends it, increments `next_id`, and returns the new item with
embedding stripped. -/
def createOp (resp : String → Option Vec) (s : SysState) (d : ItemData) :
    VisibleItem × SysState :=
  let new_item : KnowledgeItem :=
    { id := s.nextId
      title := d.title
      content := d.content
      category := d.category
      tags := d.tags.getD []
      embedding := some (km_get_embedding d.content (resp d.content)) }
  (stripEmbedding new_item, { s with kb := s.kb ++ [new_item], nextId := s.nextId + 1 })

/-- `update_item` at the state level (cache and `next_id` untouched). -/
def updateOp (resp : String → Option Vec) (s : SysState) (item_id : Nat) (p : ItemPatch) :
    Option VisibleItem × SysState :=
  let r := update_item resp s.kb item_id p
  (r.1, { s with kb := r.2 })

/-- `delete_item` at the state level (cache and `next_id` untouched). -/
def deleteOp (s : SysState) (item_id : Nat) : Bool × SysState :=
  let r := delete_item s.kb item_id
  (r.1, { s with kb := r.2 })

/-- `search_knowledge_base` at the state level: mutates the stored items
(lazy embedding backfill) and the embedding cache (`next_id` untouched). -/
noncomputable def searchOp (resp : String → Option Vec) (s : SysState)
    (query : String) (top_k : Nat) : List KnowledgeItem × SysState :=
  let r := search_knowledge_base resp s.cache s.kb query top_k
  (r.1, { s with kb := r.2.1, cache := r.2.2 })

/-- `KnowledgeManager.bulk_update_embeddings` (`knowledge_manager.py`
lines 248-266): unconditionally recomputes every item's embedding from its
content; returns the count processed. -/
def bulkOp (resp : String → Option Vec) (s : SysState) : Nat × SysState :=
  let kb' := s.kb.map fun it =>
    { it with embedding := some (km_get_embedding it.content (resp it.content)) }
  (kb'.length, { s with kb := kb' })

/-- One operation of the system, with an arbitrary provider-response oracle
per operation (so failure schedules are fully general). -/
inductive Step : SysState → SysState → Prop where
  | create (s : SysState) (d : ItemData) (resp : String → Option Vec) :
      Step s (createOp resp s d).2
  | update (s : SysState) (item_id : Nat) (p : ItemPatch) (resp : String → Option Vec) :
      Step s (updateOp resp s item_id p).2
  | del (s : SysState) (item_id : Nat) :
      Step s (deleteOp s item_id).2
  | search (s : SysState) (query : String) (top_k : Nat) (resp : String → Option Vec) :
      Step s (searchOp resp s query top_k).2
  | bulk (s : SysState) (resp : String → Option Vec) :
      Step s (bulkOp resp s).2

/-- One operation of the system in which every embedding-provider call
succeeds and returns the provider's embedding function `E`. -/
inductive StepOk (E : String → Vec) : SysState → SysState → Prop where
  | create (s : SysState) (d : ItemData) :
      StepOk E s (createOp (fun t => some (E t)) s d).2
  | update (s : SysState) (item_id : Nat) (p : ItemPatch) :
      StepOk E s (updateOp (fun t => some (E t)) s item_id p).2
  | del (s : SysState) (item_id : Nat) :
      StepOk E s (deleteOp s item_id).2
  | search (s : SysState) (query : String) (top_k : Nat) :
      StepOk E s (searchOp (fun t => some (E t)) s query top_k).2
  | bulk (s : SysState) :
      StepOk E s (bulkOp (fun t => some (E t)) s).2

/-- Every cache entry holds the provider embedding of its key. -/
def CacheOK (E : String → Vec) (cache : Cache) : Prop :=
  ∀ t v, cache.lookup t = some v → v = E t

/-- The C2 invariant: every stored embedding is either null or the provider
embedding of the item's current content, and the cache is consistent. -/
def EmbInv (E : String → Vec) (s : SysState) : Prop :=
  (∀ it ∈ s.kb, it.embedding = none ∨ it.embedding = some (E it.content)) ∧
    CacheOK E s.cache

/-- The C3 (amended) invariant: stored ids are positive, pairwise distinct
and strictly below the `next_id` counter. -/
def IdInv (s : SysState) : Prop :=
  (∀ i ∈ s.kb.map fun it => it.id, 1 ≤ i ∧ i < s.nextId) ∧
    (s.kb.map fun it => it.id).Pairwise (· ≠ ·) ∧ 1 ≤ s.nextId

/-- The punctuation set of `tag.strip('"\'.,;:()-')` (`knowledge_manager.py`
line 401). -/
def tagStripChars : List Char :=
  ['"', '\'', '.', ',', ';', ':', '(', ')', '-']

/-- Python's `s.strip(chars)`: remove characters of the set from both ends. -/
def stripChars (cs : List Char) (s : String) : String :=
  ⟨((s.data.dropWhile fun c => c ∈ cs).reverse.dropWhile fun c => c ∈ cs).reverse⟩

/-- The whitespace characters removed by Python's argumentless `str.strip()`. -/
def pyWhitespace : List Char := [' ', '\t', '\n', '\r', '\u000B', '\u000C']

/-- Python's `s.strip()`. -/
def pyStrip (s : String) : String := stripChars pyWhitespace s

/-- Python's `s.lower()` (ASCII; no non-ASCII letters occur in the claims). -/
def lowerString (s : String) : String := ⟨s.data.map Char.toLower⟩

/-- Python's `c in s` for a single character. -/
def containsChar (s : String) (c : Char) : Bool := s.data.contains c

/-- Helper for `splitOnChar`: accumulate the current piece (reversed). -/
def splitCharAux (sep : Char) : List Char → List Char → List String
  | [], acc => [⟨acc.reverse⟩]
  | c :: cs, acc =>
    if c = sep then ⟨acc.reverse⟩ :: splitCharAux sep cs []
    else splitCharAux sep cs (c :: acc)

/-- Python's `s.split(sep)` for a one-character separator. -/
def splitOnChar (sep : Char) (s : String) : List String := splitCharAux sep s.data []

/-- Python's `s.startswith(p)`. -/
def startsWithStr (p s : String) : Bool := p.data.isPrefixOf s.data

/-- Python's `s[n:]` (character slice). -/
def dropStr (n : Nat) (s : String) : String := ⟨s.data.drop n⟩

/-- Keep-first deduplication, modelling `list(set(...))` membership semantics
(`knowledge_manager.py` line 279).  Python's set iteration order is
unspecified; we fix the first-occurrence order, which no claim depends on. -/
def distinctAux (seen : List String) : List String → List String
  | [] => []
  | x :: xs => if x ∈ seen then distinctAux seen xs else x :: distinctAux (x :: seen) xs

/-- The distinct categories currently in the store
(`all_categories = list(set(item["category"] for item in self.knowledge_base))`). -/
def allCategories (kb : List KnowledgeItem) : List String :=
  distinctAux [] (kb.map fun it => it.category)

/-- The fixed default categories returned when the store has none
(`knowledge_manager.py` line 283). -/
def defaultCategories : List String :=
  ["Authentication", "Sales", "HR", "Finance", "IT Support", "General"]

/-- The prompt built by `suggest_categories` (`knowledge_manager.py`
lines 287-297). -/
def categoriesPrompt (text : String) (cats : List String) : String :=
  "\n        The following is content for a knowledge base article about an ERP system:\n        \n        " ++
    text ++
    "\n        \n        Based on this content, suggest which category it belongs to. Here are the existing categories:\n        " ++
    String.intercalate ", " cats ++
    "\n        \n        You can also suggest a new category if none of the existing ones fit well.\n        Provide up to 3 category suggestions in order of relevance.\n        "

/-- The deduplication loop of `suggest_categories` (`knowledge_manager.py`
lines 334-338): strip each candidate, keep non-empty ones not already seen,
preserving first-seen order. -/
def dedupCategories (acc : List String) : List String → List String
  | [] => acc
  | c :: rest =>
    let c := pyStrip c
    if c ≠ "" ∧ c ∉ acc then dedupCategories (acc ++ [c]) rest
    else dedupCategories acc rest

/-- `KnowledgeManager.suggest_categories` (`knowledge_manager.py`
lines 268-349).  The three regex heuristics (`re.findall` for list items,
quoted substrings, and text after a literal Category label) are passed in as
arbitrary extraction functions `listItems`, `quoted`, `afterCategory`
(theorems quantify over them, covering every behaviour of the patterns);
`chat` is the chat-completion oracle on the built prompt (`none` = the call
raised). -/
def suggest_categories (listItems quoted afterCategory : String → List String)
    (chat : String → Option String) (kb : List KnowledgeItem) (text : String) :
    List String :=
  let all_categories := allCategories kb
  if all_categories.isEmpty then defaultCategories
  else
    match chat (categoriesPrompt text all_categories) with
    | none =>
      if 0 < all_categories.length then all_categories.take 3 else ["General"]
    | some response_text =>
      let categories :=
        (listItems response_text).map pyStrip ++
          (quoted response_text).map pyStrip ++
          (afterCategory response_text).map pyStrip
      let unique_categories := dedupCategories [] categories
      if ¬ unique_categories.isEmpty then unique_categories.take 3
      else (((splitOnChar '\n' response_text).map pyStrip).filter fun l => l ≠ "").take 3

/-- The candidate split of `suggest_tags` (`knowledge_manager.py`
lines 387-395): split on commas if any comma is present, else on newlines if
any newline is present, else take the whole reply; each candidate is
stripped of whitespace and lower-cased. -/
def splitCandidates (response_text : String) : List String :=
  if containsChar response_text ',' then
    (splitOnChar ',' response_text).map fun t => lowerString (pyStrip t)
  else if containsChar response_text '\n' then
    (splitOnChar '\n' response_text).map fun t => lowerString (pyStrip t)
  else [lowerString (pyStrip response_text)]

/-- The cleanup loop of `suggest_tags` (`knowledge_manager.py` lines 397-411):
strip whitespace then surrounding punctuation, SKIP candidates shorter than
2 characters, and only AFTER that check strip a literal tag-colon prefix
(re-stripping the remainder).  Note the order: the length check precedes the
prefix strip. -/
def cleanTags : List String → List String
  | [] => []
  | tag :: rest =>
    let t := stripChars tagStripChars (pyStrip tag)
    if t.length < 2 then cleanTags rest
    else
      let t2 := if startsWithStr "tag:" t then pyStrip (dropStr 4 t) else t
      t2 :: cleanTags rest

/-- The parsing path of `KnowledgeManager.suggest_tags` (`knowledge_manager.py`
lines 384-413), as a function of the provider's reply text. -/
def suggest_tags_parse (response_text : String) : List String :=
  cleanTags (splitCandidates response_text)

/-- Explicit description of the item produced by a successful `update_item`:
recognized patch fields overwrite, `id` is untouched, and the embedding is
recomputed from the new content exactly when `content` is among the patch
keys; all other stored data is unchanged.  The frame theorem below proves
`update_item` equal to this description. -/
def patchedItem (resp : String → Option Vec) (it : KnowledgeItem) (p : ItemPatch) :
    KnowledgeItem :=
  { id := it.id
    title := p.title.getD it.title
    content := p.content.getD it.content
    category := p.category.getD it.category
    tags := p.tags.getD it.tags
    embedding :=
      match p.content with
      | some c => some (km_get_embedding c (resp c))
      | none => it.embedding }

/-- Counterexample provider for C2: the provider embedding of every text is
`[1]` (in particular not the zero-filled fallback vector). -/
def c2CexE : String → Vec := fun _ => [1]

/-- Counterexample state for C2: one `create` whose embedding call failed
(the zero vector is stored). -/
def c2CexS1 : SysState :=
  (createOp (fun _ => none) ⟨[], 1, []⟩ ⟨"t", "c", "k", none⟩).2

/-- Counterexample state for C2: a subsequent search (all provider calls now
succeed) — the operation that "requires the embedding" — does not repair the
stored zero vector, because the truthiness test only refills null/empty
embeddings. -/
noncomputable def c2CexS2 : SysState :=
  (searchOp (fun t => some (c2CexE t)) c2CexS1 "q" 3).2

/-- Counterexample state for C3: `create` on the empty store (id 1 assigned). -/
def c3CexS1 : SysState :=
  (createOp (fun _ => none) ⟨[], 1, []⟩ ⟨"a", "ca", "x", none⟩).2

/-- Counterexample state for C3: a second `create` (id 2 assigned). -/
def c3CexS2 : SysState :=
  (createOp (fun _ => none) c3CexS1 ⟨"b", "cb", "x", none⟩).2

/-- Counterexample state for C3: delete the item with the maximum id (2).
The `next_id` counter stays at 3. -/
def c3CexS3 : SysState :=
  (deleteOp c3CexS2 2).2

/-- Concrete item for the C6 stability witness (embedding present). -/
def c6Item1 : KnowledgeItem := ⟨1, "t1", "c", "k", [], some [1]⟩

/-- Second concrete item for the C6 stability witness: same content and
embedding as `c6Item1` (hence an equal similarity score), later in the store. -/
def c6Item2 : KnowledgeItem := ⟨2, "t2", "c", "k", [], some [1]⟩

/-! ## Theorems -/

/-- C10: the embedding cache only ever contains vectors returned by a
successful provider call.  On a cache miss, a failed provider call returns
the zero-filled vector of length 1536 and leaves the cache unchanged (so a
subsequent call with the same text misses again and re-attempts the
provider), while a successful call returns the provider's vector and is the
only way an entry is inserted. -/
theorem get_embedding_failure_not_cached (cache : Cache) (text : String)
    (hmiss : cache.lookup text = none) :
    get_embedding cache text none = (zeroVec, cache) ∧
    zeroVec = List.replicate 1536 0 ∧
    ∀ v, get_embedding cache text (some v) = (v, (text, v) :: cache) := by
  refine ⟨?_, rfl, fun v => ?_⟩ <;> simp [get_embedding, hmiss]

/-- Witness for `get_embedding_failure_not_cached` at the empty cache. -/
theorem get_embedding_failure_not_cached_witness :
    get_embedding [] "reset password" none = (zeroVec, []) ∧
    get_embedding [] "reset password" (some [1]) = ([1], [("reset password", [1])]) := by
  have h := get_embedding_failure_not_cached [] "reset password" rfl
  exact ⟨h.1, h.2.2 [1]⟩

/-- The dot product of `cosine_similarity` is symmetric (`zip` truncates to
the shorter list on both sides alike, and multiplication commutes). -/
theorem dotList_comm (a : Vec) : ∀ b : Vec, dotList a b = dotList b a := by
  induction a with
  | nil => intro b; cases b <;> simp [dotList]
  | cons x xs ih =>
    intro b
    cases b with
    | nil => simp [dotList]
    | cons y ys => simpa [dotList, mul_comm] using ih ys

/-- C4: `cosine_similarity` is symmetric, and returns 0 whenever either
argument has magnitude 0 (the guard `magnitude_a * magnitude_b == 0` fires,
so no division by zero occurs). -/
theorem cosine_similarity_props (a b : Vec) :
    cosine_similarity a b = cosine_similarity b a ∧
    (magnitude a = 0 ∨ magnitude b = 0 → cosine_similarity a b = 0) := by
  constructor
  · unfold cosine_similarity
    exact if_congr (by rw [mul_comm]) rfl (by rw [dotList_comm, mul_comm])
  · intro h
    have hz : magnitude a * magnitude b = 0 := by
      rcases h with h | h
      · rw [h, zero_mul]
      · rw [h, mul_zero]
    simp [cosine_similarity, hz]

/-- Witness for `cosine_similarity_props`: the all-zero vector has
magnitude 0, and the similarity degrades to 0. -/
theorem cosine_similarity_props_witness :
    cosine_similarity [0] [1] = cosine_similarity [1] [0] ∧
    cosine_similarity [0] [1] = 0 := by
  have h := cosine_similarity_props [0] [1]
  refine ⟨h.1, h.2 (Or.inl ?_)⟩
  simp [magnitude]

/-- C1: whenever the chat-completion call fails or its reply fails to parse
as JSON — the only failure points of answer synthesis, since retrieval,
context rendering and prompt building are total (embedding failures are
already absorbed into the zero-vector fallback inside the embedding layer) —
`process_query` returns exactly the fixed fallback result (generic apology,
shouldEscalate = true, empty related questions, category Error,
confidence 0, empty source ids) and, being a total function, never
propagates an exception. -/
theorem process_query_fallback (resp : String → Option Vec)
    (chat : String → String → Option String) (jsonParse : String → Option RawResult)
    (cache : Cache) (kb : List KnowledgeItem) (query : String) (user_info : Option UserInfo)
    (hfail : ∀ s u, chat s u = none ∨ ∃ r, chat s u = some r ∧ jsonParse r = none) :
    (process_query resp chat jsonParse cache kb query user_info).1 = fallbackResult := by
  unfold process_query
  rcases hfail (sysMessage user_info)
      (userMessage query (search_knowledge_base resp cache kb query 3).1) with h | ⟨r, hr, hp⟩
  · simp [h]
  · simp [hr, hp]

/-- Witness for `process_query_fallback`: a provider whose chat call always
fails forces the fallback result. -/
theorem process_query_fallback_witness :
    (process_query (fun _ => none) (fun _ _ => none) (fun _ => none) [] []
        "How do I reset my password?" none).1 = fallbackResult :=
  process_query_fallback _ _ _ _ _ _ _ (fun _ _ => Or.inl rfl)

/-- C9 counterexample: the provider reply consisting of the single candidate
with a tag-colon marker followed by one letter passes the length check
(5 characters) BEFORE the marker is stripped, so the returned tag is a
single character — the claim that every returned tag has length at least 2
after normalization is false on the code. -/
theorem suggest_tags_short_cex :
    suggest_tags_parse "tag:a" = ["a"] ∧ ("a" : String).length = 1 := by
  constructor <;> rfl

/-- C9 (amended): every tag returned by the parsing path comes from a
candidate whose trimmed, punctuation-stripped form has length at least 2;
the returned tag is either that form itself, or — when the form begins with
the literal tag-colon marker — the re-trimmed remainder after dropping the
4-character marker, which may be shorter than 2.  (The length filter runs
before the marker strip.) -/
theorem cleanTags_spec (l : List String) :
    ∀ t ∈ cleanTags l, ∃ c ∈ l,
      2 ≤ (stripChars tagStripChars (pyStrip c)).length ∧
      (t = stripChars tagStripChars (pyStrip c) ∨
        (startsWithStr "tag:" (stripChars tagStripChars (pyStrip c)) = true ∧
          t = pyStrip (dropStr 4 (stripChars tagStripChars (pyStrip c))))) := by
  induction l with
  | nil => intro t ht; simp [cleanTags] at ht
  | cons c0 rest ih =>
    intro t ht
    simp only [cleanTags] at ht
    split at ht
    · obtain ⟨c, hc, hgood⟩ := ih t ht
      exact ⟨c, List.mem_cons_of_mem _ hc, hgood⟩
    · rcases List.mem_cons.1 ht with h | h
      · refine ⟨c0, List.mem_cons_self _ _, by omega, ?_⟩
        by_cases hpre : startsWithStr "tag:" (stripChars tagStripChars (pyStrip c0)) = true
        · right
          refine ⟨hpre, ?_⟩
          rw [h, if_pos hpre]
        · left
          rw [h, if_neg hpre]
      · obtain ⟨c, hc, hgood⟩ := ih t h
        exact ⟨c, List.mem_cons_of_mem _ hc, hgood⟩

/-- Witness for `cleanTags_spec` at a concrete candidate list. -/
theorem cleanTags_spec_witness :
    "password" ∈ cleanTags ["password"] ∧
    2 ≤ (stripChars tagStripChars (pyStrip "password")).length := by
  refine ⟨by decide, ?_⟩
  obtain ⟨c, hc, hlen, -⟩ := cleanTags_spec ["password"] "password" (by decide)
  simp only [List.mem_singleton] at hc
  exact hc ▸ hlen

/-- C8 counterexample: on an empty store, `suggest_categories` returns the
fixed default list of SIX categories, so the claim that it always returns at
most 3 is false on the code. -/
theorem suggest_categories_empty_cex :
    suggest_categories (fun _ => []) (fun _ => []) (fun _ => []) (fun _ => none) []
        "inventory alerts" = defaultCategories ∧
    ¬ (suggest_categories (fun _ => []) (fun _ => []) (fun _ => []) (fun _ => none) []
        "inventory alerts").length ≤ 3 :=
  ⟨rfl, by decide⟩

/-- Every 3-element truncation has length at most 3. -/
theorem take3_length_le (l : List String) : (l.take 3).length ≤ 3 := by
  rw [List.length_take]
  exact Nat.min_le_left _ _

/-- C8 (amended): `suggest_categories` returns at most 3 category names for
every non-empty store, every provider behaviour (including failure) and
every behaviour of the three extraction heuristics; on an empty store it
instead returns the fixed 6-element default list. -/
theorem suggest_categories_len (listItems quoted afterCategory : String → List String)
    (chat : String → Option String) (kb : List KnowledgeItem) (text : String) :
    (kb = [] ∧ suggest_categories listItems quoted afterCategory chat kb text =
        defaultCategories) ∨
    (kb ≠ [] ∧ (suggest_categories listItems quoted afterCategory chat kb text).length ≤ 3) := by
  cases kb with
  | nil => exact Or.inl ⟨rfl, rfl⟩
  | cons it rest =>
    refine Or.inr ⟨by simp, ?_⟩
    unfold suggest_categories
    have hne : (allCategories (it :: rest)).isEmpty = false := by
      simp [allCategories, distinctAux]
    simp only [hne, Bool.false_eq_true, if_false]
    cases chat (categoriesPrompt text (allCategories (it :: rest))) with
    | none =>
      by_cases h : 0 < (allCategories (it :: rest)).length
      · simp only [if_pos h]
        exact take3_length_le _
      · simp only [if_neg h]
        decide
    | some response_text =>
      by_cases h : ¬ (dedupCategories []
          ((listItems response_text).map pyStrip ++ (quoted response_text).map pyStrip ++
            (afterCategory response_text).map pyStrip)).isEmpty = true
      · simp only [if_pos h]
        exact take3_length_le _
      · simp only [if_neg h]
        exact take3_length_le _

/-- Applying the recognized patch fields and then the conditional embedding
recomputation produces exactly the explicit description `patchedItem`. -/
theorem applyFields_patch (it : KnowledgeItem) (p : ItemPatch) (resp : String → Option Vec) :
    (match p.content with
      | some _ =>
        { applyFields it p with
          embedding := some (km_get_embedding (applyFields it p).content
            (resp (applyFields it p).content)) }
      | none => applyFields it p) = patchedItem resp it p := by
  rcases p with ⟨pt, pc, pca, ptg, pk⟩
  cases pt <;> cases pc <;> cases pca <;> cases ptg <;> rfl

/-- C7: for an existing item (first match on its id), `update_item` returns
the item updated exactly as described by `patchedItem` — recognized fields
applied, id untouched, embedding unchanged when `content` is not among the
patch keys and recomputed from the new content when it is — with all other
items of the store unchanged. -/
theorem update_item_frame (resp : String → Option Vec) (pre post : List KnowledgeItem)
    (it : KnowledgeItem) (p : ItemPatch) (hpre : ∀ x ∈ pre, x.id ≠ it.id) :
    update_item resp (pre ++ it :: post) it.id p =
      (some (stripEmbedding (patchedItem resp it p)),
        pre ++ patchedItem resp it p :: post) := by
  induction pre with
  | nil =>
    simp only [List.nil_append, update_item, if_pos]
    rw [applyFields_patch]
  | cons x xs ih =>
    have hx : x.id ≠ it.id := hpre x (List.mem_cons_self _ _)
    have ih' := ih fun y hy => hpre y (List.mem_cons_of_mem _ hy)
    simp only [List.cons_append, update_item, if_neg hx, List.append_eq, ih']

/-- Witness for `update_item_frame`: a one-item store, a patch setting only
the title. -/
theorem update_item_frame_witness :
    update_item (fun _ => some [2]) [⟨1, "t", "c", "k", ["x"], some [5]⟩] 1
        ⟨some "T", none, none, none, []⟩ =
      (some (stripEmbedding (patchedItem (fun _ => some [2])
          ⟨1, "t", "c", "k", ["x"], some [5]⟩ ⟨some "T", none, none, none, []⟩)),
        [patchedItem (fun _ => some [2]) ⟨1, "t", "c", "k", ["x"], some [5]⟩
          ⟨some "T", none, none, none, []⟩]) := by
  have h := update_item_frame (fun _ => some [2]) [] []
    ⟨1, "t", "c", "k", ["x"], some [5]⟩ ⟨some "T", none, none, none, []⟩ (by simp)
  simpa using h

/-- The backfill loop preserves the number of items. -/
theorem backfill_length (resp : String → Option Vec) (kb : List KnowledgeItem) :
    ∀ cache, ((backfill resp cache kb).1).length = kb.length := by
  induction kb with
  | nil => intro cache; rfl
  | cons item rest ih =>
    intro cache
    by_cases h : needsEmbedding item <;> simp [backfill, h, ih]

/-- The score comparison is total. -/
theorem scoreLE_total : ∀ x y : KnowledgeItem × ℝ, scoreLE x y || scoreLE y x := by
  intro x y
  simp only [scoreLE, Bool.or_eq_true, decide_eq_true_eq]
  exact le_total y.2 x.2

/-- The score comparison is transitive. -/
theorem scoreLE_trans : ∀ x y z : KnowledgeItem × ℝ,
    scoreLE x y → scoreLE y z → scoreLE x z := by
  intro x y z hxy hyz
  simp only [scoreLE, decide_eq_true_eq] at *
  exact le_trans hyz hxy

/-- Every scored pair carries the cosine similarity of its item. -/
theorem scoreItems_snd (qe : Vec) (l : List KnowledgeItem) :
    ∀ p ∈ scoreItems qe l, p.2 = cosine_similarity qe (p.1.embedding.getD []) := by
  intro p hp
  simp only [scoreItems, List.mem_map] at hp
  rcases hp with ⟨a, _, rfl⟩
  rfl

/-- Dropping the scores from the scored list recovers the item list. -/
theorem scoreItems_fst (qe : Vec) (l : List KnowledgeItem) :
    (scoreItems qe l).map Prod.fst = l := by
  induction l with
  | nil => rfl
  | cons a t ih => simpa [scoreItems] using ih

/-- C5: `search_knowledge_base` returns at most `top_k` items and at most as
many items as the store holds; on an empty store it returns the empty
sequence; and when `top_k` is at least the store size it returns the entire
(backfilled) collection — a permutation of it — sorted by similarity to the
query embedding in weakly decreasing order. -/
theorem search_result_spec (resp : String → Option Vec) (cache : Cache)
    (kb : List KnowledgeItem) (query : String) (top_k : Nat) :
    (search_knowledge_base resp cache kb query top_k).1.length ≤ top_k ∧
    (search_knowledge_base resp cache kb query top_k).1.length ≤ kb.length ∧
    (kb = [] → (search_knowledge_base resp cache kb query top_k).1 = []) ∧
    (kb.length ≤ top_k →
      ((search_knowledge_base resp cache kb query top_k).1).Perm
        (search_knowledge_base resp cache kb query top_k).2.1 ∧
      ((search_knowledge_base resp cache kb query top_k).1).Pairwise
        (fun a b =>
          cosine_similarity (get_embedding cache query (resp query)).1 (b.embedding.getD []) ≤
            cosine_similarity (get_embedding cache query (resp query)).1
              (a.embedding.getD []))) := by
  have hsl : (scoreItems (get_embedding cache query (resp query)).1
      (backfill resp (get_embedding cache query (resp query)).2 kb).1).length = kb.length := by
    simp [scoreItems, backfill_length]
  simp only [search_knowledge_base]
  refine ⟨?_, ?_, ?_, fun hk => ⟨?_, ?_⟩⟩
  · rw [List.length_map, List.length_take]
    exact Nat.min_le_left _ _
  · rw [List.length_map, List.length_take, sortByScoreDesc, List.length_mergeSort, hsl]
    exact Nat.min_le_right _ _
  · intro h
    subst h
    simp [backfill, scoreItems, sortByScoreDesc]
  · have ht : (sortByScoreDesc (scoreItems (get_embedding cache query (resp query)).1
        (backfill resp (get_embedding cache query (resp query)).2 kb).1)).take top_k =
        sortByScoreDesc (scoreItems (get_embedding cache query (resp query)).1
          (backfill resp (get_embedding cache query (resp query)).2 kb).1) := by
      apply List.take_of_length_le
      rw [sortByScoreDesc, List.length_mergeSort, hsl]
      exact hk
    rw [ht, sortByScoreDesc]
    have hperm := (List.mergeSort_perm (scoreItems (get_embedding cache query (resp query)).1
        (backfill resp (get_embedding cache query (resp query)).2 kb).1) scoreLE).map Prod.fst
    rwa [scoreItems_fst] at hperm
  · have ht : (sortByScoreDesc (scoreItems (get_embedding cache query (resp query)).1
        (backfill resp (get_embedding cache query (resp query)).2 kb).1)).take top_k =
        sortByScoreDesc (scoreItems (get_embedding cache query (resp query)).1
          (backfill resp (get_embedding cache query (resp query)).2 kb).1) := by
      apply List.take_of_length_le
      rw [sortByScoreDesc, List.length_mergeSort, hsl]
      exact hk
    rw [ht, sortByScoreDesc, List.pairwise_map]
    have hs := List.sorted_mergeSort scoreLE_trans scoreLE_total
      (scoreItems (get_embedding cache query (resp query)).1
        (backfill resp (get_embedding cache query (resp query)).2 kb).1)
    refine List.Pairwise.imp_of_mem ?_ hs
    intro p q hp hq hpq
    have hp2 := scoreItems_snd _ _ p (List.mem_mergeSort.1 hp)
    have hq2 := scoreItems_snd _ _ q (List.mem_mergeSort.1 hq)
    have hle : q.2 ≤ p.2 := by simpa [scoreLE] using hpq
    rw [hp2, hq2] at hle
    exact hle

/-- Witness for `search_result_spec` at the empty store with `top_k = 0`:
both conditional conclusions fire. -/
theorem search_result_spec_witness :
    (search_knowledge_base (fun _ => none) [] [] "q" 0).1 = [] ∧
    ((search_knowledge_base (fun _ => none) [] [] "q" 0).1).Perm
      (search_knowledge_base (fun _ => none) [] [] "q" 0).2.1 := by
  have h := search_result_spec (fun _ => none) [] [] "q" 0
  exact ⟨h.2.2.1 rfl, (h.2.2.2 (by decide)).1⟩

/-- C6: retrieval ordering is stable.  If two items sit in the (backfilled)
store with `x` before `y` and their similarity scores to the query embedding
are equal, then `x` still precedes `y` in the ranked list produced by the
descending sort, of which the returned result is exactly the `top_k`-prefix
(second conjunct). -/
theorem search_stable_order (resp : String → Option Vec) (cache : Cache)
    (kb : List KnowledgeItem) (query : String) (top_k : Nat) (x y : KnowledgeItem)
    (hsim : cosine_similarity (get_embedding cache query (resp query)).1 (x.embedding.getD []) =
      cosine_similarity (get_embedding cache query (resp query)).1 (y.embedding.getD []))
    (hsub : List.Sublist [x, y] (search_knowledge_base resp cache kb query top_k).2.1) :
    List.Sublist [x, y] ((sortByScoreDesc (scoreItems (get_embedding cache query (resp query)).1
        (search_knowledge_base resp cache kb query top_k).2.1)).map Prod.fst) ∧
    (search_knowledge_base resp cache kb query top_k).1 =
      ((sortByScoreDesc (scoreItems (get_embedding cache query (resp query)).1
        (search_knowledge_base resp cache kb query top_k).2.1)).take top_k).map Prod.fst := by
  refine ⟨?_, rfl⟩
  set qe := (get_embedding cache query (resp query)).1 with hqe
  set kb2 := (search_knowledge_base resp cache kb query top_k).2.1 with hkb2
  have hsub2 := hsub.map fun i => (i, cosine_similarity qe (i.embedding.getD []))
  have hab : scoreLE (x, cosine_similarity qe (x.embedding.getD []))
      (y, cosine_similarity qe (y.embedding.getD [])) := by
    simp only [scoreLE, decide_eq_true_eq]
    exact le_of_eq hsim.symm
  have hms := List.pair_sublist_mergeSort scoreLE_trans scoreLE_total hab
    (by simpa using hsub2)
  simpa [sortByScoreDesc, scoreItems] using hms.map Prod.fst

/-- Witness for `search_stable_order`: two items with identical content and
embeddings (hence equal scores); the earlier one stays first in the ranking. -/
theorem search_stable_order_witness :
    List.Sublist [c6Item1, c6Item2] ((sortByScoreDesc (scoreItems
        (get_embedding [] "q" (some [1])).1
        (search_knowledge_base (fun _ => some [1]) [] [c6Item1, c6Item2] "q" 3).2.1)).map
      Prod.fst) := by
  have hsub : List.Sublist [c6Item1, c6Item2]
      (search_knowledge_base (fun _ => some [1]) [] [c6Item1, c6Item2] "q" 3).2.1 := by
    have he : (search_knowledge_base (fun _ => some [1]) [] [c6Item1, c6Item2] "q" 3).2.1 =
        [c6Item1, c6Item2] := rfl
    rw [he]
  have h := search_stable_order (fun _ => some [1]) [] [c6Item1, c6Item2] "q" 3
    c6Item1 c6Item2 rfl hsub
  exact h.1

/-- Applying recognized patch fields never changes an item's id. -/
theorem applyFields_id (it : KnowledgeItem) (p : ItemPatch) :
    (applyFields it p).id = it.id := by
  rcases p with ⟨pt, pc, pca, ptg, pk⟩
  cases pt <;> cases pc <;> cases pca <;> cases ptg <;> rfl

/-- `update_item` preserves the sequence of stored ids. -/
theorem update_item_ids (resp : String → Option Vec) (kb : List KnowledgeItem)
    (item_id : Nat) (p : ItemPatch) :
    ((update_item resp kb item_id p).2).map (fun it => it.id) =
      kb.map fun it => it.id := by
  induction kb with
  | nil => rfl
  | cons x rest ih =>
    by_cases h : x.id = item_id
    · cases hc : p.content <;>
        simp [update_item, h, hc, applyFields_id, patchedItem]
    · simp [update_item, h, ih]

/-- `delete_item` removes at most one element, leaving a sublist. -/
theorem delete_item_sublist (kb : List KnowledgeItem) (item_id : Nat) :
    List.Sublist (delete_item kb item_id).2 kb := by
  induction kb with
  | nil => exact List.Sublist.refl _
  | cons x rest ih =>
    by_cases h : x.id = item_id
    · simp only [delete_item, if_pos h]
      exact List.sublist_cons_self _ _
    · simp only [delete_item, if_neg h]
      exact ih.cons₂ _

/-- The backfill loop preserves the sequence of stored ids. -/
theorem backfill_map_id (resp : String → Option Vec) (kb : List KnowledgeItem) :
    ∀ cache, ((backfill resp cache kb).1).map (fun it => it.id) =
      kb.map fun it => it.id := by
  induction kb with
  | nil => intro cache; rfl
  | cons item rest ih =>
    intro cache
    by_cases h : needsEmbedding item <;> simp [backfill, h, ih]

/-- `bulk_update_embeddings` preserves the sequence of stored ids. -/
theorem bulk_map_id (resp : String → Option Vec) (s : SysState) :
    ((bulkOp resp s).2).kb.map (fun it => it.id) = s.kb.map fun it => it.id := by
  simp [bulkOp]

/-- The id invariant only depends on the stored id sequence and the counter. -/
theorem idInv_of_ids_eq {s s' : SysState} (h : IdInv s)
    (hids : s'.kb.map (fun it => it.id) = s.kb.map fun it => it.id)
    (hnext : s'.nextId = s.nextId) : IdInv s' := by
  obtain ⟨hb, hp, hn⟩ := h
  exact ⟨by rw [hids, hnext]; exact hb, by rw [hids]; exact hp, by rw [hnext]; exact hn⟩

/-- Every operation of the system preserves the id invariant. -/
theorem step_IdInv {s s' : SysState} (h : IdInv s) (hs : Step s s') : IdInv s' := by
  obtain ⟨hb, hp, hn⟩ := h
  cases hs with
  | create d resp =>
    refine ⟨?_, ?_, ?_⟩
    · intro i hi
      simp only [createOp, List.map_append, List.mem_append] at hi
      simp only [createOp]
      rcases hi with hi | hi
      · have := hb i hi
        omega
      · have hi2 : i = s.nextId := by simpa using hi
        omega
    · simp only [createOp, List.map_append]
      rw [List.pairwise_append]
      refine ⟨hp, by simp, ?_⟩
      intro a ha b hbm
      have hb2 : b = s.nextId := by simpa using hbm
      have := hb a ha
      omega
    · simp only [createOp]
      omega
  | update item_id p resp =>
    exact idInv_of_ids_eq ⟨hb, hp, hn⟩ (by simp [updateOp, update_item_ids]) rfl
  | del item_id =>
    refine ⟨?_, ?_, hn⟩
    · intro i hi
      have hsub := (delete_item_sublist s.kb item_id).map fun it => it.id
      exact hb i (hsub.mem hi)
    · have hsub := (delete_item_sublist s.kb item_id).map fun it => it.id
      exact hp.sublist hsub
  | search query top_k resp =>
    exact idInv_of_ids_eq ⟨hb, hp, hn⟩
      (by simp [searchOp, search_knowledge_base, backfill_map_id]) rfl
  | bulk resp =>
    exact idInv_of_ids_eq ⟨hb, hp, hn⟩ (bulk_map_id resp s) rfl

/-- C3 (amended): along every operation sequence the stored ids stay
positive, pairwise distinct and strictly below the `next_id` counter, and
the id assigned by the next create equals the counter — which strictly
exceeds every id currently in the store, so allocation is monotone.  (It
equals the maximum stored id plus one only until a deletion removes the
maximum; the counter is never recomputed.) -/
theorem c3_amended (s s' : SysState) (h : IdInv s)
    (hr : Relation.ReflTransGen Step s s') :
    IdInv s' ∧ ∀ d resp, ((createOp resp s' d).1).id = s'.nextId ∧
      ∀ it ∈ s'.kb, it.id < ((createOp resp s' d).1).id := by
  have hinv : IdInv s' := by
    induction hr with
    | refl => exact h
    | tail _ hstep ih => exact step_IdInv ih hstep
  refine ⟨hinv, fun d resp => ⟨rfl, fun it hit => ?_⟩⟩
  exact (hinv.1 it.id (List.mem_map_of_mem _ hit)).2

/-- Witness for `c3_amended`: from the freshly initialised empty store, the
first create assigns id 1. -/
theorem c3_amended_witness :
    IdInv ⟨[], 1, []⟩ ∧
    ((createOp (fun _ => none) ⟨[], 1, []⟩ ⟨"t", "c", "k", none⟩).1).id = 1 := by
  have h0 : IdInv ⟨[], 1, []⟩ := ⟨by simp, by simp, by simp [IdInv]⟩
  have h := c3_amended ⟨[], 1, []⟩ ⟨[], 1, []⟩ h0 Relation.ReflTransGen.refl
  exact ⟨h.1, (h.2 ⟨"t", "c", "k", none⟩ (fun _ => none)).1⟩

/-- C3 counterexample: create twice (ids 1 and 2), delete the item with the
maximum id (2).  The next create assigns id 3, but the claimed rule
"maximum id among items currently in the store plus 1" gives 2 — the claim
is false on the code, because `next_id` is a counter that deletions never
lower. -/
theorem c3_cex :
    Step ⟨[], 1, []⟩ c3CexS1 ∧ Step c3CexS1 c3CexS2 ∧ Step c3CexS2 c3CexS3 ∧
    ((createOp (fun _ => none) c3CexS3 ⟨"c", "cc", "x", none⟩).1).id = 3 ∧
    maxId c3CexS3.kb = 1 ∧
    ((createOp (fun _ => none) c3CexS3 ⟨"c", "cc", "x", none⟩).1).id ≠
      maxId c3CexS3.kb + 1 :=
  ⟨Step.create _ _ _, Step.create _ _ _, Step.del _ _, rfl, rfl, by decide⟩

/-- When the provider call succeeds with the provider embedding of the text,
`get_embedding` returns it and keeps the cache consistent. -/
theorem get_embedding_ok (E : String → Vec) (cache : Cache) (t : String)
    (hc : CacheOK E cache) :
    (get_embedding cache t (some (E t))).1 = E t ∧
    CacheOK E (get_embedding cache t (some (E t))).2 := by
  unfold get_embedding
  cases hl : cache.lookup t with
  | some v =>
    simp only [hl]
    exact ⟨hc t v hl, hc⟩
  | none =>
    simp only [hl]
    refine ⟨by trivial, ?_⟩
    intro t' v' h'
    simp only [List.lookup] at h'
    split at h'
    · rename_i hbeq
      cases h'
      have ht : t' = t := by simpa using hbeq
      rw [ht]
    · exact hc t' v' h'

/-- The backfill loop with an always-succeeding provider preserves the
embedding invariant on the items and the cache consistency. -/
theorem backfill_ok (E : String → Vec) (kb : List KnowledgeItem) :
    ∀ cache, CacheOK E cache →
      (∀ it ∈ kb, it.embedding = none ∨ it.embedding = some (E it.content)) →
      (∀ it ∈ (backfill (fun t => some (E t)) cache kb).1,
        it.embedding = none ∨ it.embedding = some (E it.content)) ∧
      CacheOK E (backfill (fun t => some (E t)) cache kb).2 := by
  induction kb with
  | nil =>
    intro cache hc _
    constructor
    · intro it hit
      simp [backfill] at hit
    · exact hc
  | cons item rest ih =>
    intro cache hc hkb
    by_cases h : needsEmbedding item
    · have hg := get_embedding_ok E cache item.content hc
      have hrec := ih (get_embedding cache item.content (some (E item.content))).2 hg.2
        fun it hit => hkb it (List.mem_cons_of_mem _ hit)
      constructor
      · intro it hit
        simp only [backfill, if_pos h] at hit
        rcases List.mem_cons.1 hit with rfl | hit
        · right
          simp [hg.1]
        · exact hrec.1 it hit
      · simp only [backfill, if_pos h]
        exact hrec.2
    · have hrec := ih cache hc fun it hit => hkb it (List.mem_cons_of_mem _ hit)
      constructor
      · intro it hit
        simp only [backfill, if_neg h] at hit
        rcases List.mem_cons.1 hit with rfl | hit
        · exact hkb _ (List.mem_cons_self _ _)
        · exact hrec.1 it hit
      · simp only [backfill, if_neg h]
        exact hrec.2

/-- `update_item` with an always-succeeding provider preserves the
embedding invariant. -/
theorem update_item_emb (E : String → Vec) (kb : List KnowledgeItem) (item_id : Nat)
    (p : ItemPatch)
    (hkb : ∀ it ∈ kb, it.embedding = none ∨ it.embedding = some (E it.content)) :
    ∀ it ∈ (update_item (fun t => some (E t)) kb item_id p).2,
      it.embedding = none ∨ it.embedding = some (E it.content) := by
  induction kb with
  | nil => intro it hit; simp [update_item] at hit
  | cons x rest ih =>
    intro it hit
    by_cases h : x.id = item_id
    · rcases p with ⟨pt, pc, pca, ptg, pk⟩
      cases pc with
      | some c =>
        simp only [update_item, if_pos h] at hit
        rcases List.mem_cons.1 hit with rfl | hit
        · right
          cases pt <;> cases pca <;> cases ptg <;> simp [applyFields, km_get_embedding]
        · exact hkb it (List.mem_cons_of_mem _ hit)
      | none =>
        simp only [update_item, if_pos h] at hit
        rcases List.mem_cons.1 hit with rfl | hit
        · have hx := hkb x (List.mem_cons_self _ _)
          cases pt <;> cases pca <;> cases ptg <;> simpa [applyFields] using hx
        · exact hkb it (List.mem_cons_of_mem _ hit)
    · simp only [update_item, if_neg h] at hit
      rcases List.mem_cons.1 hit with rfl | hit
      · exact hkb _ (List.mem_cons_self _ _)
      · exact ih (fun i hi => hkb i (List.mem_cons_of_mem _ hi)) it hit

/-- Every operation whose provider calls all succeed preserves the C2
invariant. -/
theorem stepOk_EmbInv {E : String → Vec} {s s' : SysState} (h : EmbInv E s)
    (hs : StepOk E s s') : EmbInv E s' := by
  obtain ⟨hkb, hc⟩ := h
  cases hs with
  | create d =>
    constructor
    · intro it hit
      rcases List.mem_append.1 hit with hit | hit
      · exact hkb it hit
      · rw [List.mem_singleton] at hit
        subst hit
        right
        rfl
    · exact hc
  | update item_id p =>
    exact ⟨update_item_emb E s.kb item_id p hkb, hc⟩
  | del item_id =>
    exact ⟨fun it hit => hkb it ((delete_item_sublist s.kb item_id).mem hit), hc⟩
  | search query top_k =>
    have hg := get_embedding_ok E s.cache query hc
    have hbf := backfill_ok E s.kb (get_embedding s.cache query (some (E query))).2 hg.2 hkb
    exact ⟨hbf.1, hbf.2⟩
  | bulk =>
    constructor
    · intro it hit
      simp only [bulkOp] at hit
      rcases List.mem_map.1 hit with ⟨i, _, rfl⟩
      right
      rfl
    · exact hc

/-- C2 (amended): in every state reachable by operations whose
embedding-provider calls all succeed, each stored embedding is either null
or the provider embedding of the item's current content, and every cache
entry is the provider embedding of its key.  (When a provider call fails,
the stored zero-vector fallback violates this and — being a non-empty list,
hence truthy — is never repaired by later searches; see the
counterexample.) -/
theorem c2_amended (E : String → Vec) (s s' : SysState) (h : EmbInv E s)
    (hr : Relation.ReflTransGen (StepOk E) s s') : EmbInv E s' := by
  induction hr with
  | refl => exact h
  | tail _ hstep ih => exact stepOk_EmbInv ih hstep

/-- Witness for `c2_amended`: one successful create from the empty store. -/
theorem c2_amended_witness :
    EmbInv (fun _ => [1]) ⟨[], 1, []⟩ ∧
    EmbInv (fun _ => [1])
      (createOp (fun _ => some [1]) ⟨[], 1, []⟩ ⟨"t", "c", "k", none⟩).2 := by
  have h0 : EmbInv (fun _ => [1]) ⟨[], 1, []⟩ := by
    constructor
    · intro it hit
      exact absurd hit (List.not_mem_nil it)
    · intro t v hv
      simp [List.lookup] at hv
  refine ⟨h0, c2_amended _ _ _ h0 (Relation.ReflTransGen.single ?_)⟩
  exact StepOk.create _ _

/-- C2 counterexample: create an item while the provider is failing — the
zero-vector fallback (not null, not the provider embedding of the content)
is stored — then run a search with the provider healthy again: the zero
vector is truthy, so the backfill does not touch it and the staleness is
permanent, not transient.  Both states are reachable. -/
theorem c2_cex :
    Step ⟨[], 1, []⟩ c2CexS1 ∧ Step c2CexS1 c2CexS2 ∧
    c2CexS2.kb.map (fun it => it.embedding) = [some zeroVec] ∧
    c2CexS2.kb.map (fun it => it.content) = ["c"] ∧
    some zeroVec ≠ (none : Option Vec) ∧ some zeroVec ≠ some (c2CexE "c") := by
  refine ⟨Step.create _ _ _, Step.search _ _ _ _, rfl, rfl, by simp, ?_⟩
  intro hcontr
  have h1 : zeroVec = c2CexE "c" := Option.some.inj hcontr
  have h2 := congrArg List.length h1
  rw [zeroVec, List.length_replicate] at h2
  simp [c2CexE] at h2
